import Mathlib

/-!
Shallow embedding of the armada-go repository (airshipit/armada-go) core:
the readiness wait engine (pkg/wait/wait.go) and the apply package
(manifest parsing/validation, chart-group orchestration, InstallChart).
Definitions are translated from the Go source; theorems check the
natural-language specification against them.
-/

namespace ArmadaGo

/-! ### Go string containment (strings.Contains) -/

/-- Go `strings.Contains s substr`: substr occurs as a contiguous substring of s. -/
def strContains (s substr : String) : Bool :=
  decide (substr.toList <:+: s.toList)

/-- String append acts as list append on the character data. -/
theorem str_toList_append (s t : String) : (s ++ t).toList = s.toList ++ t.toList := by
  cases s; cases t; rfl

/-! ### Wait engine data model (pkg/wait/wait.go)

`ArmadaChart` models the fields of armada-operator's `armadav1.ArmadaChart`
that the wait engine reads: metadata name, metadata generation, and the
status (observed generation and conditions). Generations are int64 in
Kubernetes; equality comparison is modelled on `Int`. -/

/-- The four status constants Ready/Skipped/Unready/Error of wait.go. -/
inductive StatusType
  | ready
  | skipped
  | unready
  | error
deriving DecidableEq, Repr

/-- wait.go `Status`: a status type plus a message. -/
structure Status where
  statusType : StatusType
  msg : String
deriving DecidableEq, Repr

/-- A status condition (`cond.Type`, `cond.Status` are compared as strings). -/
structure ACCondition where
  type : String
  status : String
deriving DecidableEq, Repr

/-- The status sub-object of an ArmadaChart: last observed generation and conditions. -/
structure ArmadaChartStatus where
  observedGeneration : Int
  conditions : List ACCondition
deriving DecidableEq, Repr

/-- The fields of `armadav1.ArmadaChart` read by the wait engine. -/
structure ArmadaChart where
  name : String
  generation : Int
  status : ArmadaChartStatus
deriving DecidableEq, Repr

/-- A runtime object delivered by the informer or the watch stream.
`chart` is a `*armadav1.ArmadaChart`; `nonChart` is an object whose
metadata accessor succeeds but whose type switch falls through to the
default case of `getObjectStatus`; `noMeta` is an object for which
`meta.Accessor` fails (it carries no object metadata). -/
inductive WatchObj
  | chart (ac : ArmadaChart)
  | nonChart (name : String) (desc : String)
  | noMeta (desc : String)
deriving DecidableEq, Repr

/-- `meta.Accessor(obj).GetName()`: `none` models an accessor error. -/
def accessorName : WatchObj → Option String
  | .chart ac => some ac.name
  | .nonChart n _ => some n
  | .noMeta _ => none

/-- The `%s` rendering of the object in log/error messages. -/
def objDesc : WatchObj → String
  | .chart ac => ac.name
  | .nonChart _ d => d
  | .noMeta d => d

/-- wait.go `isArmadaChartReady`: READY exactly when the status's observed
generation equals the metadata generation and some condition has type
"Ready" with status "True"; UNREADY otherwise. -/
def isArmadaChartReady (ac : ArmadaChart) : Status :=
  if ac.status.observedGeneration == ac.generation then
    if ac.status.conditions.any (fun c => c.type == "Ready" && c.status == "True") then
      ⟨.ready, "armadachart " ++ ac.name ++ " ready"⟩
    else
      ⟨.unready, "Waiting for armadachart " ++ ac.name ++ " to be ready"⟩
  else
    ⟨.unready, "Waiting for armadachart " ++ ac.name ++ " to be ready"⟩

/-- wait.go `getObjectStatus`: dispatch on the concrete object type;
anything that is not an `*armadav1.ArmadaChart` yields an ERROR status. -/
def getObjectStatus : WatchObj → Status
  | .chart ac => isArmadaChartReady ac
  | .nonChart _ d => ⟨.error, "Unable to cast an object to any type " ++ d⟩
  | .noMeta d => ⟨.error, "Unable to cast an object to any type " ++ d⟩

/-- An entry of the informer cache store. `id` models Go pointer identity:
the comparison `item == obj` on interface values in `allMatch` compares
pointers, so two entries are `==` exactly when their ids coincide. -/
structure StoreItem where
  id : Nat
  obj : WatchObj
deriving DecidableEq, Repr

/-- wait.go `allMatch`: every cached item, except the one pointer-equal to
the event object (when a non-nil object is passed), must have status READY
or SKIPPED. The Go function also returns an error which is always nil. -/
def allMatch (store : List StoreItem) (eventId : Option Nat) : Bool :=
  store.all (fun item =>
    (match eventId with
      | some j => item.id == j
      | none => false) ||
    (let st := (getObjectStatus item.obj).statusType
     st == StatusType.ready || st == StatusType.skipped))

/-- A watch event: `type` is the event type string (`event.Type`), `objId`
the pointer identity of `event.Object`, `obj` its value. -/
structure WatchEvent where
  type : String
  objId : Nat
  obj : WatchObj
deriving DecidableEq, Repr

/-- The error message built at wait.go line 94 for an ERROR-type event. -/
def errorEventMsg (name desc : String) : String :=
  "resource " ++ name ++ ": got error event " ++ desc

/-- wait.go `processEvent`: accessor failure is an error; an ERROR-type
event is an error naming the resource; otherwise the object's computed
status is returned with no error. -/
def processEvent (e : WatchEvent) : StatusType × Option String :=
  match accessorName e.obj with
  | none => (.error, some "unable to retrieve object metadata")
  | some nm =>
    if e.type == "ERROR" then
      (.error, some (errorEventMsg nm (objDesc e.obj)))
    else
      ((getObjectStatus e.obj).statusType, none)

/-- The watch-loop condition closure `cfu` of `Wait`: unless `processEvent`
reports READY with no error, keep waiting (propagating any error);
otherwise re-evaluate `allMatch` over the whole cached store, skipping the
item pointer-equal to the event object. -/
def cfu (store : List StoreItem) (e : WatchEvent) : Bool × Option String :=
  let r := processEvent e
  if r.1 != StatusType.ready || r.2.isSome then
    (false, r.2)
  else
    (allMatch store (some e.objId), none)

/-- The precondition closure `cpu` of `Wait`: an empty initial snapshot is
an immediate success; otherwise all items must already match. -/
def cpu (store : List StoreItem) : Bool :=
  if store.length == 0 then true else allMatch store none

/-- Outcome of a wait: converged, failed with an error, or the event
stream ended (deadline) without convergence. -/
inductive WaitOutcome
  | success
  | failure (msg : String)
  | exhausted
deriving DecidableEq, Repr

/-- The watch loop of `watchtools.UntilWithSync` applied to `cfu`: events
are delivered one at a time, each paired with the cache-store contents at
delivery time; an error ends the wait as a failure, a true condition ends
it as success. The second component counts processed events. -/
def runEvents : List (List StoreItem × WatchEvent) → WaitOutcome × Nat
  | [] => (.exhausted, 0)
  | (store, e) :: rest =>
    match cfu store e with
    | (_, some m) => (.failure m, 1)
    | (true, none) => (.success, 1)
    | (false, none) => ((runEvents rest).1, (runEvents rest).2 + 1)

/-- wait.go `Wait` via `UntilWithSync`: first the precondition `cpu` is
evaluated on the synced snapshot; if it holds the wait succeeds with no
event processed, otherwise the watch loop runs. -/
def waitRun (initialStore : List StoreItem)
    (steps : List (List StoreItem × WatchEvent)) : WaitOutcome × Nat :=
  if cpu initialStore then (.success, 0) else runEvents steps

/-! ### Manifest document store (apply package, cmd/root.go)

The apply package reads a multi-document YAML stream. Each document is
first probed by unmarshalling only schema and metadata.name into
`AirshipDocument`; on probe failure the document is logged and skipped.
Recognized documents are then unmarshalled fully into the typed structs;
failure of that second unmarshal returns the error. A raw document is
modelled by the outcomes of those two decodes. -/

/-- `AirshipManifestSpec`: data of an armada/Manifest/v1 document
(`chart_groups`, `release_prefix`). -/
structure AirshipManifestSpec where
  chartGroups : List String
  relPfx : String
deriving DecidableEq, Repr

/-- `AirshipChartGroupSpec`: data of an armada/ChartGroup/v1 document
(`chart_group` names and the `sequenced` flag). -/
structure AirshipChartGroupSpec where
  chartGroup : List String
  sequenced : Bool
deriving DecidableEq, Repr

/-- The fields of an armada/Chart/v1 document's data that validation
reads: the release name and the target namespace. -/
structure AirshipChartSpec where
  release : String
  nsName : String
deriving DecidableEq, Repr

/-- A stream document whose cheap probe (`AirshipDocument`) decoded:
its schema string, its metadata name, and the results of the full typed
unmarshal attempts (`none` = that unmarshal fails; only the one selected
by the schema is ever attempted). -/
structure DecodedDoc where
  schema : String
  name : String
  manifestData : Option AirshipManifestSpec
  groupData : Option AirshipChartGroupSpec
  chartData : Option AirshipChartSpec
deriving DecidableEq, Repr

/-- A document of the stream: `bad` fails the cheap probe (logged and
skipped by the code), `good` decodes to a `DecodedDoc`. -/
inductive RawDoc
  | bad
  | good (d : DecodedDoc)
deriving DecidableEq, Repr

/-- The collections `RunCommand` accumulates: the selected manifest (name
and data), and the name-keyed maps of chart groups and charts. Go map
insertion overwrites, modelled by prepending and first-match lookup. -/
structure PState where
  airManifest : Option (String × AirshipManifestSpec)
  airGroups : List (String × AirshipChartGroupSpec)
  airCharts : List (String × AirshipChartSpec)
deriving DecidableEq, Repr

/-- The state at the start of `ParseManifests`: empty maps, no manifest. -/
def initPState : PState := ⟨none, [], []⟩

/-- Processing of one successfully probed document in the ParseManifests
loop. A manifest document is fully unmarshalled and selected only when a
target name is set and matches, or no target is set and no manifest has
been selected yet; chart-group and chart documents are always
unmarshalled and stored under their metadata name. The three schema tests
of the source are mutually exclusive string comparisons. -/
def parseDoc (target : String) (st : PState) (d : DecodedDoc) : Except String PState :=
  if d.schema == "armada/Manifest/v1" then
    if (target != "" && d.name == target) || (target == "" && st.airManifest.isNone) then
      match d.manifestData with
      | none => .error "manifest document unmarshalling error"
      | some m => .ok { st with airManifest := some (d.name, m) }
    else .ok st
  else if d.schema == "armada/ChartGroup/v1" then
    match d.groupData with
    | none => .error "chart group document unmarshalling error"
    | some g => .ok { st with airGroups := (d.name, g) :: st.airGroups }
  else if d.schema == "armada/Chart/v1" then
    match d.chartData with
    | none => .error "chart document unmarshalling error"
    | some ch => .ok { st with airCharts := (d.name, ch) :: st.airCharts }
  else .ok st

/-- The document loop of `ParseManifests`: documents failing the cheap
probe are skipped; each decoded document is processed by `parseDoc`,
whose error aborts the loop. -/
def parseDocs (target : String) : List RawDoc → PState → Except String PState
  | [], st => .ok st
  | .bad :: rest, st => parseDocs target rest st
  | .good d :: rest, st =>
    match parseDoc target st d with
    | .error e => .error e
    | .ok st1 => parseDocs target rest st1

/-- `ValidateManifests` inner loop: one chart reference must resolve to a
loaded chart document with non-empty release and namespace. -/
def validateChartRef (charts : List (String × AirshipChartSpec)) (c : String) :
    Except String Unit :=
  match charts.lookup c with
  | none => .error ("no chart document with name " ++ c ++ " found")
  | some ch =>
    if ch.release == "" || ch.nsName == "" then
      .error ("chart document with name " ++ c ++ " found does not have release or ns")
    else .ok ()

/-- `ValidateManifests`: all chart references of one group, in order. -/
def validateCharts (charts : List (String × AirshipChartSpec)) :
    List String → Except String Unit
  | [] => .ok ()
  | c :: rest =>
    match validateChartRef charts c with
    | .error e => .error e
    | .ok _ => validateCharts charts rest

/-- `ValidateManifests`: each referenced chart-group name must resolve to
a loaded group document, whose chart references are then checked. -/
def validateGroups (st : PState) : List String → Except String Unit
  | [] => .ok ()
  | g :: rest =>
    match st.airGroups.lookup g with
    | none => .error ("no group document with name " ++ g ++ " found")
    | some cg =>
      match validateCharts st.airCharts cg.chartGroup with
      | .error e => .error e
      | .ok _ => validateGroups st rest

/-- `ValidateManifests` (cmd/root.go): fails when no manifest was
selected, otherwise checks referential integrity of the selected
manifest's chart-group list. It makes no cluster call. -/
def validateManifests (st : PState) : Except String Unit :=
  match st.airManifest with
  | none => .error "no or multiple armada manifest found"
  | some (_, m) => validateGroups st m.chartGroups

/-- `ParseManifests` on an already-obtained document stream: run the
document loop from the empty state, then validate. -/
def parseManifests (target : String) (docs : List RawDoc) : Except String PState :=
  match parseDocs target docs initPState with
  | .error e => .error e
  | .ok st =>
    match validateManifests st with
    | .error e => .error e
    | .ok _ => .ok st

/-- Whether a load result is a failure. -/
def exceptFailed {α : Type} : Except String α → Bool
  | .error _ => true
  | .ok _ => false

/-- Whether the stream contains a probe-decodable manifest document with
the given metadata name. -/
def hasTargetManifest (target : String) (docs : List RawDoc) : Bool :=
  docs.any (fun r =>
    match r with
    | .bad => false
    | .good d => d.schema == "armada/Manifest/v1" && d.name == target)

/-- The first probe-decodable manifest document of the stream, paired
with its typed data when that decodes. -/
def firstManifestDoc : List RawDoc → Option (String × AirshipManifestSpec)
  | [] => none
  | .bad :: rest => firstManifestDoc rest
  | .good d :: rest =>
    if d.schema == "armada/Manifest/v1" then
      match d.manifestData with
      | some m => some (d.name, m)
      | none => none
    else firstManifestDoc rest

/-! ### ParseManifests source handling (C10)

`ParseManifests` first parses `c.Manifests` as a URL. An empty scheme
opens a local file; the scheme `deckhand+http` strips the prefix and
performs an authenticated HTTP GET. Any other non-empty scheme assigns
nothing to the `io.ReadCloser` `f`; the function then proceeds to read
from `f` and runs the deferred `f.Close()`, both of which dereference a
nil interface and panic. -/

/-- Outcome of the full `ParseManifests`: a returned state, a returned Go
error value, or a nil-reader panic (no value is returned at all). -/
inductive ParseOutcome
  | ok (st : PState)
  | goError (msg : String)
  | nilReaderPanic
deriving DecidableEq, Repr

/-- A manifest source: the scheme of the parsed URL, whether opening the
local file (scheme "") or the authenticated HTTP fetch (scheme
"deckhand+http") succeeds, and the byte stream's documents. -/
structure ManifestSource where
  scheme : String
  openOk : Bool
  httpOk : Bool
  docs : List RawDoc
deriving DecidableEq, Repr

/-- Lift the stream-parsing result into a `ParseOutcome`. -/
def runStream (target : String) (docs : List RawDoc) : ParseOutcome :=
  match parseManifests target docs with
  | .error e => .goError e
  | .ok st => .ok st

/-- `ParseManifests` including reader selection: scheme "" reads a local
file, "deckhand+http" fetches over HTTP; any other scheme leaves the
reader nil, and the subsequent use of it (the read loop and the deferred
Close) panics on the nil interface instead of returning an error. -/
def parseManifestsFull (target : String) (src : ManifestSource) : ParseOutcome :=
  if src.scheme == "" then
    if src.openOk then runStream target src.docs else .goError "open error"
  else if src.scheme == "deckhand+http" then
    if src.httpOk then runStream target src.docs else .goError "auth or http error"
  else
    .nilReaderPanic

/-! ### InstallChart (apply package, cmd/root.go)

`InstallChart` gets the resource; on a get error it creates it (any
create error is fatal); on success it copies the fetched resource version
onto the new object and updates. An update error containing the
concurrent-modification marker restarts the whole function; any other
update error is fatal. After a successful create or update it runs the
readiness wait and returns its result. The cluster's responses are
modelled as a script: one `AttemptOutcome` per get-rooted attempt. -/

/-- The cluster's responses to one attempt of `InstallChart`: either the
get fails (the code then creates, with `createErr` its outcome) or the
get returns a resource with version `rv` (the code then updates, with
`updateErr` the outcome). `none` means the call succeeded. -/
inductive AttemptOutcome
  | absent (createErr : Option String)
  | present (rv : String) (updateErr : Option String)
deriving DecidableEq, Repr

/-- Counts of the create and update calls `InstallChart` has issued. -/
structure CallTrace where
  creates : Nat
  updates : Nat
deriving DecidableEq, Repr

/-- Result of `InstallChart`: success, a returned error, or the response
script ran out (only reachable on scripts shorter than the retry chain). -/
inductive InstallResult
  | success (t : CallTrace)
  | failure (msg : String) (t : CallTrace)
  | noResponse (t : CallTrace)
deriving DecidableEq, Repr

/-- The marker `strings.Contains(err.Error(), ...)` tests for. -/
def conflictMarker : String := "the object has been modified"

/-- Whether an update error signals an optimistic-concurrency conflict. -/
def isConflictErr (msg : String) : Bool := strContains msg conflictMarker

/-- `InstallChart` over a response script. `waitErr` is the result of the
readiness wait performed after the create/update succeeds (`none` =
converged). A conflicting update error recurses on the remaining script,
re-running the whole function; any other create/update error, and any
wait error, is returned. -/
def installChart (waitErr : Option String) :
    List AttemptOutcome → CallTrace → InstallResult
  | [], t => .noResponse t
  | .absent createErr :: _, t =>
    match createErr with
    | some e => .failure e ⟨t.creates + 1, t.updates⟩
    | none =>
      match waitErr with
      | some e => .failure e ⟨t.creates + 1, t.updates⟩
      | none => .success ⟨t.creates + 1, t.updates⟩
  | .present _ updateErr :: rest, t =>
    match updateErr with
    | none =>
      match waitErr with
      | some e => .failure e ⟨t.creates, t.updates + 1⟩
      | none => .success ⟨t.creates, t.updates + 1⟩
    | some e =>
      if isConflictErr e then
        installChart waitErr rest ⟨t.creates, t.updates + 1⟩
      else
        .failure e ⟨t.creates, t.updates + 1⟩

/-- A quiescent cluster holding at most the one chart resource, by its
current resource version (`none` = absent). -/
structure Cluster where
  res : Option String
deriving DecidableEq, Repr

/-- The response script a quiescent cluster (no external mutation)
produces for one `InstallChart` call: get fails when the resource is
absent and the create succeeds; otherwise get returns the stored version
and the version-matched update succeeds. -/
def quiescentScript (c : Cluster) : List AttemptOutcome :=
  match c.res with
  | none => [.absent none]
  | some rv => [.present rv none]

/-- The quiescent cluster after a successful `InstallChart`: a created
resource gets an initial version, an updated one a bumped version. -/
def clusterAfterInstall (c : Cluster) : Cluster :=
  match c.res with
  | none => ⟨some "1"⟩
  | some rv => ⟨some (rv ++ "x")⟩

/-! ### RunE chart-group loop (apply package, cmd/root.go)

`RunE` iterates the selected manifest's chart groups in declared order.
A non-sequenced group launches one errgroup task per chart and waits for
all of them (every chart is invoked; the group's error is the first error
reported); a sequenced group installs charts one at a time, stopping at
the first error. Any group error returns from `RunE` before the next
group starts. `install` maps a chart name to its InstallChart outcome. -/

/-- A chart group as `RunE` consumes it: chart names in declared order
and the `sequenced` flag. -/
structure ChartGroupDoc where
  charts : List String
  sequenced : Bool
deriving DecidableEq, Repr

/-- The sequenced inner loop of `RunE`: install charts in order, stopping
at the first error. Returns the invoked charts in invocation order and
the group's error. -/
def runSeq (install : String → Option String) : List String → List String × Option String
  | [] => ([], none)
  | c :: rest =>
    match install c with
    | some e => ([c], some e)
    | none =>
      match runSeq install rest with
      | (tr, r) => (c :: tr, r)

/-- The first error among a non-sequenced group's charts (the error
`errgroup.Wait` reports); all charts run regardless. -/
def firstErr (install : String → Option String) : List String → Option String
  | [] => none
  | c :: rest =>
    match install c with
    | some e => some e
    | none => firstErr install rest

/-- One chart group's processing: sequenced groups run `runSeq`;
non-sequenced groups invoke every chart and report the first error. -/
def groupRun (install : String → Option String) (g : ChartGroupDoc) :
    List String × Option String :=
  if g.sequenced then runSeq install g.charts
  else (g.charts, firstErr install g.charts)

/-- The group loop of `RunE`: groups in declared order; a group's error
returns immediately, otherwise the next group starts only after the
current one has fully completed. Returns the invoked charts in order and
the run's error. -/
def runGroups (install : String → Option String) :
    List ChartGroupDoc → List String × Option String
  | [] => ([], none)
  | g :: rest =>
    match groupRun install g with
    | (tr, some e) => (tr, some e)
    | (tr, none) =>
      match runGroups install rest with
      | (tr2, r) => (tr ++ tr2, r)

/-! ### Concrete fixtures used by witnesses and counterexamples -/

/-- A chart whose status generation matches and which carries a
Ready/True condition. -/
def readyChart : ArmadaChart := ⟨"ch1", 3, ⟨3, [⟨"Ready", "True"⟩]⟩⟩

/-- A chart still converging: generation observed, but no Ready/True
condition yet. -/
def unreadyChart : ArmadaChart := ⟨"ch2", 5, ⟨5, [⟨"Ready", "False"⟩]⟩⟩

/-- A cache-store entry holding `readyChart` with pointer id 1. -/
def readyItem : StoreItem := ⟨1, .chart readyChart⟩

/-- A MODIFIED event delivering `readyChart` (same pointer id 1). -/
def readyEvent : WatchEvent := ⟨"MODIFIED", 1, .chart readyChart⟩

/-- An ERROR-type event delivering `unreadyChart` with pointer id 2. -/
def errEvent : WatchEvent := ⟨"ERROR", 2, .chart unreadyChart⟩

/-- Manifest document named "a" (empty group list, release prefix "pa"). -/
def mDocA : DecodedDoc := ⟨"armada/Manifest/v1", "a", some ⟨[], "pa"⟩, none, none⟩

/-- Manifest document named "b" (empty group list, release prefix "pb"). -/
def mDocB : DecodedDoc := ⟨"armada/Manifest/v1", "b", some ⟨[], "pb"⟩, none, none⟩

/-- A stream holding manifests "a" then "b", in that order. -/
def docsAB : List RawDoc := [.good mDocA, .good mDocB]

/-- A chart document whose cheap probe decodes (schema armada/Chart/v1,
name "c") but whose full typed unmarshal fails. -/
def badChartDoc : DecodedDoc := ⟨"armada/Chart/v1", "c", none, none, none⟩

/-- A manifest document whose cheap probe decodes (schema
armada/Manifest/v1, name "bm") but whose full typed unmarshal fails. -/
def badManifestDoc : DecodedDoc := ⟨"armada/Manifest/v1", "bm", none, none, none⟩

/-- A consistent loaded state: manifest "m" referencing group "g1",
which references chart "c1" with non-empty release and namespace. -/
def stGood : PState :=
  ⟨some ("m", ⟨["g1"], "p"⟩), [("g1", ⟨["c1"], false⟩)], [("c1", ⟨"r", "ns"⟩)]⟩

/-- A concrete install-outcome function: chart "X" fails, others work. -/
def installX : String → Option String :=
  fun c => if c == "X" then some "X failed" else none

/-! ### Lemmas about the wait engine -/

/-- `allMatch` with no event object: every cached item must report READY
or SKIPPED. -/
theorem allMatch_none_iff (store : List StoreItem) :
    allMatch store none = true ↔
      ∀ item ∈ store, (getObjectStatus item.obj).statusType = .ready ∨
        (getObjectStatus item.obj).statusType = .skipped := by
  simp [allMatch, List.all_eq_true, beq_iff_eq]

/-- `allMatch` with an event object: every cached item must either be the
event object itself (pointer identity) or report READY or SKIPPED. -/
theorem allMatch_some_iff (store : List StoreItem) (j : Nat) :
    allMatch store (some j) = true ↔
      ∀ item ∈ store, item.id = j ∨ (getObjectStatus item.obj).statusType = .ready ∨
        (getObjectStatus item.obj).statusType = .skipped := by
  simp [allMatch, List.all_eq_true, beq_iff_eq]

/-- C5: for every ArmadaChart, the per-kind status function returns READY
exactly when the status's last observed generation equals the current
generation and the conditions contain type "Ready" with value "True";
in every other case it returns UNREADY, never SKIPPED or ERROR. -/
theorem armadachart_status_spec (ac : ArmadaChart) :
    ((isArmadaChartReady ac).statusType = .ready ↔
      (ac.status.observedGeneration = ac.generation ∧
        ∃ c ∈ ac.status.conditions, c.type = "Ready" ∧ c.status = "True"))
    ∧ ((isArmadaChartReady ac).statusType = .ready ∨
        (isArmadaChartReady ac).statusType = .unready) := by
  constructor
  · unfold isArmadaChartReady
    split
    · next hg =>
      split
      · next hc => simp_all [List.any_eq_true, beq_iff_eq]
      · next hc => simp_all [List.any_eq_true, beq_iff_eq]
    · next hg => simp_all [beq_iff_eq]
  · unfold isArmadaChartReady
    split
    · split
      · exact Or.inl rfl
      · exact Or.inr rfl
    · exact Or.inr rfl

/-- C6: a Wait whose initial snapshot is empty succeeds immediately with
no watch event processed; a non-empty initial snapshot in which every
item already reports READY or SKIPPED likewise succeeds without
processing any watch event. -/
theorem wait_initial_snapshot_spec (steps : List (List StoreItem × WatchEvent)) :
    waitRun [] steps = (.success, 0)
    ∧ ∀ store : List StoreItem, store ≠ [] →
        (∀ item ∈ store, (getObjectStatus item.obj).statusType = .ready ∨
          (getObjectStatus item.obj).statusType = .skipped) →
        waitRun store steps = (.success, 0) := by
  constructor
  · simp [waitRun, cpu]
  · intro store hne hall
    have hm : allMatch store none = true := (allMatch_none_iff store).mpr hall
    have hcpu : cpu store = true := by
      unfold cpu
      split <;> simp [hm]
    simp [waitRun, hcpu]

/-- wait_initial_snapshot_spec applied at a one-item READY snapshot. -/
theorem wait_initial_snapshot_spec_witness :
    waitRun [readyItem] [([readyItem], readyEvent)] = (.success, 0) :=
  (wait_initial_snapshot_spec [([readyItem], readyEvent)]).2 [readyItem]
    (by decide) (by decide)

/-- C1: processing of one delivered watch event against the cached store.
An ERROR-type event fails the wait with an error message naming the
offending resource; a non-ERROR event whose object's status is not READY
keeps the wait running without re-evaluating convergence; a non-ERROR
event whose object's status is READY triggers `allMatch` over the whole
cached store, and (when items pointer-equal to the event object hold the
event's object) the wait succeeds on this event if and only if every
member of the cached set reports READY or SKIPPED, continuing otherwise. -/
theorem watch_event_semantics (store : List StoreItem) (e : WatchEvent) (nm : String)
    (rest : List (List StoreItem × WatchEvent))
    (hacc : accessorName e.obj = some nm) :
    (e.type = "ERROR" →
      runEvents ((store, e) :: rest) = (.failure (errorEventMsg nm (objDesc e.obj)), 1)
      ∧ nm.toList <:+: (errorEventMsg nm (objDesc e.obj)).toList)
    ∧ (e.type ≠ "ERROR" → (getObjectStatus e.obj).statusType ≠ .ready →
        runEvents ((store, e) :: rest) = ((runEvents rest).1, (runEvents rest).2 + 1))
    ∧ (e.type ≠ "ERROR" → (getObjectStatus e.obj).statusType = .ready →
        cfu store e = (allMatch store (some e.objId), none)
        ∧ ((∀ item ∈ store, item.id = e.objId → item.obj = e.obj) →
            (allMatch store (some e.objId) = true ↔
              ∀ item ∈ store, (getObjectStatus item.obj).statusType = .ready ∨
                (getObjectStatus item.obj).statusType = .skipped))
        ∧ (allMatch store (some e.objId) = true →
            runEvents ((store, e) :: rest) = (.success, 1))
        ∧ (allMatch store (some e.objId) = false →
            runEvents ((store, e) :: rest) = ((runEvents rest).1, (runEvents rest).2 + 1))) := by
  refine ⟨?_, ?_, ?_⟩
  · intro herr
    have hpe : processEvent e = (.error, some (errorEventMsg nm (objDesc e.obj))) := by
      simp [processEvent, hacc, herr]
    have hcfu : cfu store e = (false, some (errorEventMsg nm (objDesc e.obj))) := by
      simp [cfu, hpe]
    refine ⟨by simp [runEvents, hcfu], ?_⟩
    exact ⟨"resource ".toList, (": got error event " ++ objDesc e.obj).toList,
      by simp [errorEventMsg, str_toList_append, List.append_assoc]⟩
  · intro herr hnr
    have hb : (e.type == "ERROR") = false := beq_eq_false_iff_ne.mpr herr
    have hpe : processEvent e = ((getObjectStatus e.obj).statusType, none) := by
      simp [processEvent, hacc, hb]
    have hne : ((getObjectStatus e.obj).statusType != StatusType.ready) = true :=
      bne_iff_ne.mpr hnr
    have hcfu : cfu store e = (false, none) := by
      simp [cfu, hpe, hne]
    simp [runEvents, hcfu]
  · intro herr hr
    have hb : (e.type == "ERROR") = false := beq_eq_false_iff_ne.mpr herr
    have hpe : processEvent e = ((getObjectStatus e.obj).statusType, none) := by
      simp [processEvent, hacc, hb]
    have hcfu : cfu store e = (allMatch store (some e.objId), none) := by
      simp [cfu, hpe, hr]
    refine ⟨hcfu, ?_, ?_, ?_⟩
    · intro hwf
      rw [allMatch_some_iff]
      constructor
      · intro hall item him
        rcases hall item him with hid | hrs
        · rw [hwf item him hid]
          exact Or.inl hr
        · exact hrs
      · intro hall item him
        exact Or.inr (hall item him)
    · intro hM
      rw [hM] at hcfu
      simp [runEvents, hcfu]
    · intro hM
      rw [hM] at hcfu
      simp [runEvents, hcfu]

/-- watch_event_semantics applied to a READY event converging a one-item
store and to an ERROR event. -/
theorem watch_event_semantics_witness :
    runEvents [([readyItem], readyEvent)] = (.success, 1)
    ∧ runEvents [([readyItem], errEvent)] = (.failure (errorEventMsg "ch2" "ch2"), 1) := by
  constructor
  · exact ((watch_event_semantics [readyItem] readyEvent "ch1" [] rfl).2.2
      (by decide) (by decide)).2.2.1 (by decide)
  · exact ((watch_event_semantics [readyItem] errEvent "ch2" [] rfl).1 rfl).1

/-! ### Lemmas about InstallChart and the group loop -/

/-- The conflict marker is detected in itself. -/
theorem isConflictErr_marker : isConflictErr conflictMarker = true := by decide

/-- A run of n conflicting updates followed by a successful update ends
in success after n + 1 update calls, whatever the starting trace. -/
theorem installChart_conflict_chain (rv : String) :
    ∀ (n : Nat) (t : CallTrace),
      installChart none
          (List.replicate n (.present rv (some conflictMarker)) ++ [.present rv none]) t
        = .success ⟨t.creates, t.updates + n + 1⟩ := by
  intro n
  induction n with
  | zero => intro t; simp [installChart]
  | succ k ih =>
    intro t
    have h1 : installChart none
        (List.replicate (k + 1) (AttemptOutcome.present rv (some conflictMarker))
          ++ [AttemptOutcome.present rv none]) t
        = installChart none
            (List.replicate k (AttemptOutcome.present rv (some conflictMarker))
              ++ [AttemptOutcome.present rv none]) ⟨t.creates, t.updates + 1⟩ := by
      rw [List.replicate_succ, List.cons_append]
      simp [installChart, isConflictErr_marker]
    rw [h1, ih ⟨t.creates, t.updates + 1⟩]
    have h2 : t.updates + 1 + k + 1 = t.updates + (k + 1) + 1 := by omega
    rw [h2]

/-- C2: an update failure whose message contains the
concurrent-modification marker restarts the whole InstallChart (re-fetch,
re-copy the resource version, re-update) on the remaining cluster
responses; an update failure with any other message is fatal for the
chart; and there is no retry limit: any number of consecutive conflicts
followed by a successful update ends in success. -/
theorem install_conflict_retry_spec :
    (∀ (w : Option String) (rv e : String) (rest : List AttemptOutcome) (t : CallTrace),
       isConflictErr e = true →
       installChart w (.present rv (some e) :: rest) t
         = installChart w rest ⟨t.creates, t.updates + 1⟩)
    ∧ (∀ (w : Option String) (rv e : String) (rest : List AttemptOutcome) (t : CallTrace),
       isConflictErr e = false →
       installChart w (.present rv (some e) :: rest) t = .failure e ⟨t.creates, t.updates + 1⟩)
    ∧ (∀ (n : Nat) (rv : String),
       installChart none
           (List.replicate n (.present rv (some conflictMarker)) ++ [.present rv none]) ⟨0, 0⟩
         = .success ⟨0, n + 1⟩) := by
  refine ⟨?_, ?_, ?_⟩
  · intro w rv e rest t hc
    simp [installChart, hc]
  · intro w rv e rest t hc
    simp [installChart, hc]
  · intro n rv
    simpa using installChart_conflict_chain rv n ⟨0, 0⟩

/-- install_conflict_retry_spec applied at one conflict then success. -/
theorem install_conflict_retry_spec_witness :
    installChart none [.present "7" (some conflictMarker), .present "8" none] ⟨0, 0⟩
      = .success ⟨0, 2⟩ := by
  rw [install_conflict_retry_spec.1 none "7" conflictMarker [.present "8" none] ⟨0, 0⟩
    (by decide)]
  decide

/-- C9: InstallChart is idempotent for resource creation. Against a
quiescent cluster starting without the resource, the first call issues
exactly one create (and no update); the second call, seeing the resource
the first call created, issues exactly one update (and no create). -/
theorem install_twice_idempotent :
    installChart none (quiescentScript ⟨none⟩) ⟨0, 0⟩ = .success ⟨1, 0⟩
    ∧ installChart none (quiescentScript (clusterAfterInstall ⟨none⟩)) ⟨0, 0⟩
        = .success ⟨0, 1⟩ :=
  ⟨rfl, rfl⟩

/-- In a sequenced chart list, the first failing chart stops the loop:
exactly the charts before it and itself are invoked, and its error is
the group's error. -/
theorem runSeq_abort (install : String → Option String) :
    ∀ (xs : List String) (x : String) (ys : List String) (e : String),
      (∀ c ∈ xs, install c = none) → install x = some e →
      runSeq install (xs ++ x :: ys) = (xs ++ [x], some e) := by
  intro xs
  induction xs with
  | nil =>
    intro x ys e _ hx
    simp [runSeq, hx]
  | cons c cs ih =>
    intro x ys e hall hx
    have hc : install c = none := hall c (by simp)
    have hrest : ∀ d ∈ cs, install d = none := fun d hd => hall d (by simp [hd])
    simp [runSeq, hc, ih x ys e hrest hx]

/-- C8: chart groups are processed strictly in declared order — a failing
group returns its error with no later group started, and a succeeding
group fully completes before the next group's charts are invoked; within
a sequenced group charts run one at a time in declared order and the
first failure aborts the run with no later chart of that group nor any
chart of a later group invoked. -/
theorem run_groups_sequencing_spec :
    (∀ (install : String → Option String) (g : ChartGroupDoc) (rest : List ChartGroupDoc)
        (tr : List String) (e : String),
       groupRun install g = (tr, some e) → runGroups install (g :: rest) = (tr, some e))
    ∧ (∀ (install : String → Option String) (g : ChartGroupDoc) (rest : List ChartGroupDoc)
        (tr : List String),
       groupRun install g = (tr, none) →
       runGroups install (g :: rest)
         = (tr ++ (runGroups install rest).1, (runGroups install rest).2))
    ∧ (∀ (install : String → Option String) (xs : List String) (x : String)
        (ys : List String) (e : String),
       (∀ c ∈ xs, install c = none) → install x = some e →
       runSeq install (xs ++ x :: ys) = (xs ++ [x], some e))
    ∧ (∀ (install : String → Option String) (xs : List String) (x : String)
        (ys : List String) (e : String) (rest : List ChartGroupDoc),
       (∀ c ∈ xs, install c = none) → install x = some e →
       runGroups install (⟨xs ++ x :: ys, true⟩ :: rest) = (xs ++ [x], some e)) := by
  refine ⟨?_, ?_, ?_, ?_⟩
  · intro install g rest tr e h
    simp [runGroups, h]
  · intro install g rest tr h
    cases hr : runGroups install rest with
    | mk tr2 r => simp [runGroups, h, hr]
  · intro install xs x ys e hall hx
    exact runSeq_abort install xs x ys e hall hx
  · intro install xs x ys e rest hall hx
    have h3 := runSeq_abort install xs x ys e hall hx
    have hg : groupRun install ⟨xs ++ x :: ys, true⟩ = (xs ++ [x], some e) := by
      simp [groupRun, h3]
    simp [runGroups, hg]

/-- run_groups_sequencing_spec applied at a sequenced group [W, X, Y]
whose chart X fails, followed by another group. -/
theorem run_groups_sequencing_spec_witness :
    runGroups installX [⟨["W", "X", "Y"], true⟩, ⟨["Z"], false⟩]
      = (["W", "X"], some "X failed") := by
  have h := run_groups_sequencing_spec.2.2.2 installX ["W"] "X" ["Y"] "X failed"
    [⟨["Z"], false⟩] (by decide) (by decide)
  simpa using h

/-- C10: a manifest source whose URL has a non-empty scheme other than
"deckhand+http" leaves the reader unassigned; ParseManifests then panics
on the nil reader (read loop and deferred Close) instead of returning a
Go error value. -/
theorem parse_nil_reader_panic_spec (target : String) (src : ManifestSource)
    (h1 : src.scheme ≠ "") (h2 : src.scheme ≠ "deckhand+http") :
    parseManifestsFull target src = .nilReaderPanic
    ∧ ∀ e, parseManifestsFull target src ≠ .goError e := by
  have hb1 : (src.scheme == "") = false := beq_eq_false_iff_ne.mpr h1
  have hb2 : (src.scheme == "deckhand+http") = false := beq_eq_false_iff_ne.mpr h2
  constructor
  · simp [parseManifestsFull, hb1, hb2]
  · intro e
    simp [parseManifestsFull, hb1, hb2]

/-- parse_nil_reader_panic_spec applied at an http scheme source. -/
theorem parse_nil_reader_panic_spec_witness :
    parseManifestsFull "" ⟨"http", true, true, docsAB⟩ = .nilReaderPanic :=
  (parse_nil_reader_panic_spec "" ⟨"http", true, true, docsAB⟩ (by decide) (by decide)).1

/-! ### Lemmas about the document loop -/

/-- How `parseDoc` treats the selected manifest: it is preserved unless
the document is a manifest document passing the selection guard, in
which case its decoded data is selected under the document's name. -/
theorem parseDoc_airManifest (target : String) (st : PState) (d : DecodedDoc) (st' : PState)
    (h : parseDoc target st d = .ok st') :
    st'.airManifest = st.airManifest ∨
      (d.schema = "armada/Manifest/v1"
        ∧ ((target ≠ "" ∧ d.name = target) ∨ (target = "" ∧ st.airManifest = none))
        ∧ ∃ m, d.manifestData = some m ∧ st'.airManifest = some (d.name, m)) := by
  unfold parseDoc at h
  split at h
  · next hs =>
    split at h
    · next hg =>
      cases hm : d.manifestData with
      | none => rw [hm] at h; simp at h
      | some m =>
        rw [hm] at h
        injection h with h1
        right
        refine ⟨by simpa using hs, ?_, m, rfl, by rw [← h1]⟩
        simpa [Bool.or_eq_true, Bool.and_eq_true, bne_iff_ne, beq_iff_eq,
          Option.isNone_iff_eq_none] using hg
    · next hg =>
      injection h with h1
      left
      rw [← h1]
  · split at h
    · cases hgd : d.groupData with
      | none => rw [hgd] at h; simp at h
      | some g =>
        rw [hgd] at h
        injection h with h1
        left
        rw [← h1]
    · split at h
      · cases hcd : d.chartData with
        | none => rw [hcd] at h; simp at h
        | some ch =>
          rw [hcd] at h
          injection h with h1
          left
          rw [← h1]
      · injection h with h1
        left
        rw [← h1]

/-- With a target set, whatever manifest the loop selects carries the
target name; the selection can only change to `some (target, _)`. -/
theorem parseDocs_target_invariant (target : String) (ht : target ≠ "") :
    ∀ (docs : List RawDoc) (st st' : PState), parseDocs target docs st = .ok st' →
      st'.airManifest = st.airManifest ∨ ∃ m, st'.airManifest = some (target, m) := by
  intro docs
  induction docs with
  | nil =>
    intro st st' h
    injection h with h1
    left
    rw [← h1]
  | cons r rest ih =>
    cases r with
    | bad =>
      intro st st' h
      exact ih st st' h
    | good d =>
      intro st st' h
      simp only [parseDocs] at h
      cases hp : parseDoc target st d with
      | error e => rw [hp] at h; simp at h
      | ok st1 =>
        rw [hp] at h
        rcases parseDoc_airManifest target st d st1 hp with hl | ⟨_, hg, m, _, hset⟩
        · rcases ih st1 st' h with h1 | h2
          · left; rw [h1, hl]
          · right; exact h2
        · rcases hg with ⟨_, hname⟩ | ⟨h0, _⟩
          · rcases ih st1 st' h with h1 | h2
            · right; exact ⟨m, by rw [h1, hset, hname]⟩
            · right; exact h2
          · exact absurd h0 ht

/-- With a target set that no probe-decodable manifest document carries,
the loop leaves the manifest selection unchanged. -/
theorem parseDocs_target_absent (target : String) (ht : target ≠ "") :
    ∀ (docs : List RawDoc) (st st' : PState),
      hasTargetManifest target docs = false →
      parseDocs target docs st = .ok st' → st'.airManifest = st.airManifest := by
  intro docs
  induction docs with
  | nil =>
    intro st st' _ h
    injection h with h1
    rw [← h1]
  | cons r rest ih =>
    cases r with
    | bad =>
      intro st st' habs h
      exact ih st st' (by simpa [hasTargetManifest] using habs) h
    | good d =>
      intro st st' habs h
      simp only [hasTargetManifest, List.any_cons, Bool.or_eq_false_iff] at habs
      obtain ⟨hd, hrest0⟩ := habs
      simp only [parseDocs] at h
      cases hp : parseDoc target st d with
      | error e => rw [hp] at h; simp at h
      | ok st1 =>
        rw [hp] at h
        have hrest : hasTargetManifest target rest = false := by
          simpa [hasTargetManifest] using hrest0
        rcases parseDoc_airManifest target st d st1 hp with hl | ⟨hs, hg, _, _, _⟩
        · rw [ih st1 st' hrest h, hl]
        · rcases hg with ⟨_, hname⟩ | ⟨h0, _⟩
          · rw [hs, hname] at hd
            simp at hd
          · exact absurd h0 ht

/-- With a target set that some probe-decodable manifest document
carries, a completed loop has selected a manifest named target. -/
theorem parseDocs_target_found (target : String) (ht : target ≠ "") :
    ∀ (docs : List RawDoc) (st st' : PState),
      hasTargetManifest target docs = true →
      parseDocs target docs st = .ok st' →
      ∃ m, st'.airManifest = some (target, m) := by
  intro docs
  induction docs with
  | nil =>
    intro st st' habs _
    simp [hasTargetManifest] at habs
  | cons r rest ih =>
    cases r with
    | bad =>
      intro st st' habs h
      exact ih st st' (by simpa [hasTargetManifest] using habs) h
    | good d =>
      intro st st' habs h
      simp only [parseDocs] at h
      cases hp : parseDoc target st d with
      | error e => rw [hp] at h; simp at h
      | ok st1 =>
        rw [hp] at h
        simp only [hasTargetManifest, List.any_cons, Bool.or_eq_true, Bool.and_eq_true,
          beq_iff_eq] at habs
        rcases habs with ⟨hs, hname⟩ | hrest
        · have hbs : (d.schema == "armada/Manifest/v1") = true := by simp [hs]
          have hbg : ((target != "" && d.name == target)
              || (target == "" && st.airManifest.isNone)) = true := by
            simp [bne_iff_ne, ht, hname]
          unfold parseDoc at hp
          rw [if_pos hbs, if_pos hbg] at hp
          cases hm : d.manifestData with
          | none => rw [hm] at hp; simp at hp
          | some m =>
            rw [hm] at hp
            injection hp with hp1
            have hst1 : st1.airManifest = some (target, m) := by
              rw [← hp1, ← hname]
            rcases parseDocs_target_invariant target ht rest st1 st' h with h1 | h2
            · exact ⟨m, by rw [h1, hst1]⟩
            · exact h2
        · exact ih st1 st' (by simpa [hasTargetManifest] using hrest) h

/-- With no target, an already-selected manifest is never replaced. -/
theorem parseDocs_manifest_stable :
    ∀ (docs : List RawDoc) (st st' : PState) (x : String × AirshipManifestSpec),
      parseDocs "" docs st = .ok st' → st.airManifest = some x →
      st'.airManifest = some x := by
  intro docs
  induction docs with
  | nil =>
    intro st st' x h hset
    injection h with h1
    rw [← h1, hset]
  | cons r rest ih =>
    cases r with
    | bad =>
      intro st st' x h hset
      exact ih st st' x h hset
    | good d =>
      intro st st' x h hset
      simp only [parseDocs] at h
      cases hp : parseDoc "" st d with
      | error e => rw [hp] at h; simp at h
      | ok st1 =>
        rw [hp] at h
        rcases parseDoc_airManifest "" st d st1 hp with hl | ⟨_, hg, _, _, _⟩
        · exact ih st1 st' x h (by rw [hl, hset])
        · rcases hg with ⟨h0, _⟩ | ⟨_, hnone⟩
          · exact absurd rfl h0
          · rw [hset] at hnone
            simp at hnone

/-- With no target, a completed loop starting with no manifest selected
has selected exactly the first manifest document of the stream. -/
theorem parseDocs_first_manifest :
    ∀ (docs : List RawDoc) (st st' : PState),
      parseDocs "" docs st = .ok st' → st.airManifest = none →
      st'.airManifest = firstManifestDoc docs := by
  intro docs
  induction docs with
  | nil =>
    intro st st' h hnone
    injection h with h1
    rw [← h1, hnone, firstManifestDoc]
  | cons r rest ih =>
    cases r with
    | bad =>
      intro st st' h hnone
      rw [firstManifestDoc]
      exact ih st st' h hnone
    | good d =>
      intro st st' h hnone
      simp only [parseDocs] at h
      cases hp : parseDoc "" st d with
      | error e => rw [hp] at h; simp at h
      | ok st1 =>
        rw [hp] at h
        by_cases hs : d.schema = "armada/Manifest/v1"
        · have hbs : (d.schema == "armada/Manifest/v1") = true := by simp [hs]
          have hbg : (("" != "" && d.name == "") || ("" == "" && st.airManifest.isNone)) = true := by
            simp [hnone]
          unfold parseDoc at hp
          rw [if_pos hbs, if_pos hbg] at hp
          cases hm : d.manifestData with
          | none => rw [hm] at hp; simp at hp
          | some m =>
            rw [hm] at hp
            injection hp with hp1
            have hst1 : st1.airManifest = some (d.name, m) := by rw [← hp1]
            have hfin := parseDocs_manifest_stable rest st1 st' (d.name, m) h hst1
            rw [hfin]
            rw [firstManifestDoc, if_pos hbs, hm]
        · have hl : st1.airManifest = st.airManifest := by
            rcases parseDoc_airManifest "" st d st1 hp with hl | ⟨hs1, _, _, _, _⟩
            · exact hl
            · exact absurd hs1 hs
          have hbs : (d.schema == "armada/Manifest/v1") = false := by simp [hs]
          rw [firstManifestDoc, if_neg (by simp [hbs])]
          exact ih st1 st' h (by rw [hl, hnone])

/-- C3: manifest selection. With a target name, any selected manifest
carries exactly that name, and when some manifest document carries it the
completed loop has selected one with that name; when no document carries
it the whole load fails. With no target, a completed loop selected the
first manifest document in stream order (all later manifest documents are
ignored); and whenever no manifest ends up selected, the load fails. -/
theorem manifest_selection_spec (target : String) (docs : List RawDoc) :
    (target ≠ "" → ∀ st, parseDocs target docs initPState = .ok st →
      (∀ n m, st.airManifest = some (n, m) → n = target)
      ∧ (hasTargetManifest target docs = true → ∃ m, st.airManifest = some (target, m)))
    ∧ (target ≠ "" → hasTargetManifest target docs = false →
        exceptFailed (parseManifests target docs) = true)
    ∧ (∀ st, parseDocs "" docs initPState = .ok st → st.airManifest = firstManifestDoc docs)
    ∧ (∀ st, parseDocs target docs initPState = .ok st → st.airManifest = none →
        exceptFailed (parseManifests target docs) = true) := by
  refine ⟨?_, ?_, ?_, ?_⟩
  · intro ht st h
    constructor
    · intro n m hset
      rcases parseDocs_target_invariant target ht docs initPState st h with h1 | ⟨m2, h2⟩
      · rw [hset] at h1
        simp [initPState] at h1
      · rw [hset] at h2
        simp only [Option.some.injEq, Prod.mk.injEq] at h2
        exact h2.1
    · intro hfound
      exact parseDocs_target_found target ht docs initPState st hfound h
  · intro ht habs
    unfold parseManifests
    cases hp : parseDocs target docs initPState with
    | error e => rfl
    | ok st =>
      have hnone : st.airManifest = none :=
        parseDocs_target_absent target ht docs initPState st habs hp
      simp [validateManifests, hnone, exceptFailed]
  · intro st h
    exact parseDocs_first_manifest docs initPState st h rfl
  · intro st h hnone
    unfold parseManifests
    rw [h]
    simp [validateManifests, hnone, exceptFailed]

/-- manifest_selection_spec applied at the stream of manifests "a" then
"b": the absent target "c" fails the load; with no target "a" is
selected; with target "b", "b" is selected. -/
theorem manifest_selection_spec_witness :
    exceptFailed (parseManifests "c" docsAB) = true
    ∧ (⟨some ("a", ⟨[], "pa"⟩), [], []⟩ : PState).airManifest = firstManifestDoc docsAB
    ∧ (∃ m, (⟨some ("b", ⟨[], "pb"⟩), [], []⟩ : PState).airManifest = some ("b", m)) := by
  refine ⟨?_, ?_, ?_⟩
  · exact (manifest_selection_spec "c" docsAB).2.1 (by decide) (by decide)
  · exact (manifest_selection_spec "" docsAB).2.2.1 ⟨some ("a", ⟨[], "pa"⟩), [], []⟩ rfl
  · exact ((manifest_selection_spec "b" docsAB).1 (by decide)
      ⟨some ("b", ⟨[], "pb"⟩), [], []⟩ rfl).2 (by decide)

/-! ### Lemmas about validation -/

/-- Boolean resolution of one chart reference. -/
def chartRefOk (charts : List (String × AirshipChartSpec)) (c : String) : Bool :=
  match charts.lookup c with
  | none => false
  | some ch => !(ch.release == "" || ch.nsName == "")

/-- Boolean resolution of one chart-group reference. -/
def groupRefOk (st : PState) (g : String) : Bool :=
  match st.airGroups.lookup g with
  | none => false
  | some cg => cg.chartGroup.all (chartRefOk st.airCharts)

/-- A chart reference resolves exactly when a loaded chart document of
that name exists with non-empty release and namespace. -/
theorem chartRefOk_iff (charts : List (String × AirshipChartSpec)) (c : String) :
    chartRefOk charts c = true ↔
      ∃ ch, charts.lookup c = some ch ∧ ch.release ≠ "" ∧ ch.nsName ≠ "" := by
  unfold chartRefOk
  cases h : charts.lookup c with
  | none => simp
  | some ch => simp [beq_iff_eq]

/-- `validateChartRef` succeeds exactly when the reference resolves. -/
theorem validateChartRef_ok_iff (charts : List (String × AirshipChartSpec)) (c : String) :
    validateChartRef charts c = .ok () ↔ chartRefOk charts c = true := by
  unfold validateChartRef chartRefOk
  cases h : charts.lookup c with
  | none => simp
  | some ch =>
    split
    · next hcond => simp [hcond]
    · next hcond => simp [hcond]

/-- The chart loop of `ValidateManifests` succeeds exactly when every
referenced chart resolves. -/
theorem validateCharts_ok_iff (charts : List (String × AirshipChartSpec)) :
    ∀ cs : List String,
      validateCharts charts cs = .ok () ↔ cs.all (chartRefOk charts) = true := by
  intro cs
  induction cs with
  | nil => simp [validateCharts]
  | cons c rest ih =>
    simp only [validateCharts, List.all_cons, Bool.and_eq_true]
    cases hv : validateChartRef charts c with
    | error e =>
      have hb : chartRefOk charts c = false := by
        cases hx : chartRefOk charts c
        · rfl
        · have := (validateChartRef_ok_iff charts c).mpr hx
          rw [hv] at this
          simp at this
      simp [hb]
    | ok u =>
      cases u
      have hb : chartRefOk charts c = true := (validateChartRef_ok_iff charts c).mp hv
      simp [hb, ih]

/-- The group loop of `ValidateManifests` succeeds exactly when every
referenced group resolves with all its chart references. -/
theorem validateGroups_ok_iff (st : PState) :
    ∀ gs : List String,
      validateGroups st gs = .ok () ↔ gs.all (groupRefOk st) = true := by
  intro gs
  induction gs with
  | nil => simp [validateGroups]
  | cons g rest ih =>
    simp only [validateGroups, List.all_cons, Bool.and_eq_true]
    cases hl : st.airGroups.lookup g with
    | none => simp [groupRefOk, hl]
    | some cg =>
      cases hv : validateCharts st.airCharts cg.chartGroup with
      | error e =>
        have hb : cg.chartGroup.all (chartRefOk st.airCharts) = false := by
          cases hx : cg.chartGroup.all (chartRefOk st.airCharts)
          · rfl
          · have := (validateCharts_ok_iff st.airCharts cg.chartGroup).mpr hx
            rw [hv] at this
            simp at this
        simp [groupRefOk, hl, hb, hv]
      | ok u =>
        cases u
        have hb : cg.chartGroup.all (chartRefOk st.airCharts) = true :=
          (validateCharts_ok_iff st.airCharts cg.chartGroup).mp hv
        simp [groupRefOk, hl, hb, ih, hv]

/-- A group reference resolves exactly when a loaded group document of
that name exists all of whose chart references resolve. -/
theorem groupRefOk_iff (st : PState) (g : String) :
    groupRefOk st g = true ↔
      ∃ cg, st.airGroups.lookup g = some cg ∧
        ∀ c ∈ cg.chartGroup, ∃ ch, st.airCharts.lookup c = some ch ∧
          ch.release ≠ "" ∧ ch.nsName ≠ "" := by
  unfold groupRefOk
  cases h : st.airGroups.lookup g with
  | none => simp
  | some cg => simp [List.all_eq_true, chartRefOk_iff]

/-- C4: with a manifest selected, validation succeeds exactly when every
referenced chart-group name resolves to a loaded group document, every
chart name referenced by such a group resolves to a loaded chart
document, and every such chart has non-empty release and namespace; and
the load as a whole (which makes no cluster call) succeeds exactly under
the same condition once the document loop has completed. -/
theorem validate_refs_spec (st : PState) (n : String) (m : AirshipManifestSpec)
    (h : st.airManifest = some (n, m)) :
    (validateManifests st = .ok () ↔ m.chartGroups.all (groupRefOk st) = true)
    ∧ (∀ g, groupRefOk st g = true ↔
        ∃ cg, st.airGroups.lookup g = some cg ∧
          ∀ c ∈ cg.chartGroup, ∃ ch, st.airCharts.lookup c = some ch ∧
            ch.release ≠ "" ∧ ch.nsName ≠ "")
    ∧ (∀ (target : String) (docs : List RawDoc),
        parseDocs target docs initPState = .ok st →
        (parseManifests target docs = .ok st ↔ m.chartGroups.all (groupRefOk st) = true)) := by
  have hiff : validateManifests st = .ok () ↔ m.chartGroups.all (groupRefOk st) = true := by
    unfold validateManifests
    rw [h]
    exact validateGroups_ok_iff st m.chartGroups
  refine ⟨hiff, fun g => groupRefOk_iff st g, ?_⟩
  intro target docs hp
  unfold parseManifests
  rw [hp]
  cases hv : validateManifests st with
  | error e =>
    have hfalse : m.chartGroups.all (groupRefOk st) ≠ true := by
      intro hx
      have := hiff.mpr hx
      rw [hv] at this
      simp at this
    simp [hv, hfalse]
  | ok u =>
    cases u
    have htrue := hiff.mp hv
    simp [hv, htrue]

/-- validate_refs_spec applied at a consistent loaded state. -/
theorem validate_refs_spec_witness : validateManifests stGood = .ok () :=
  (validate_refs_spec stGood "m" ⟨["g1"], "p"⟩ rfl).1.mpr (by decide)

/-- C7 counterexample: the claim that a document failing to decode never
causes the whole load to fail is false. In the stream [manifest "a",
chart document "c" whose typed decode fails], the load fails, while the
same stream without the failing document succeeds. -/
theorem parse_decode_skip_cex :
    exceptFailed (parseManifests "" [.good mDocA, .good badChartDoc]) = true
    ∧ exceptFailed (parseManifests "" [.good mDocA]) = false :=
  ⟨rfl, rfl⟩

/-- C7 amended: a document failing the cheap schema/metadata probe is
skipped and the load continues with the remaining documents; but a
recognized Chart or ChartGroup document whose full typed unmarshal
fails, and a recognized Manifest document passing the selection rule
(the only case in which its full unmarshal is attempted) whose typed
unmarshal fails, abort the whole load with an error. -/
theorem parse_decode_skip_spec (target : String) (rest : List RawDoc) (st : PState) :
    (parseDocs target (.bad :: rest) st = parseDocs target rest st)
    ∧ (∀ d : DecodedDoc, d.schema = "armada/Chart/v1" → d.chartData = none →
        parseDocs target (.good d :: rest) st = .error "chart document unmarshalling error")
    ∧ (∀ d : DecodedDoc, d.schema = "armada/ChartGroup/v1" → d.groupData = none →
        parseDocs target (.good d :: rest) st
          = .error "chart group document unmarshalling error")
    ∧ (∀ d : DecodedDoc, d.schema = "armada/Manifest/v1" → d.manifestData = none →
        ((target ≠ "" ∧ d.name = target) ∨ (target = "" ∧ st.airManifest = none)) →
        parseDocs target (.good d :: rest) st
          = .error "manifest document unmarshalling error") := by
  refine ⟨rfl, ?_, ?_, ?_⟩
  · intro d hs hd
    have h1 : (d.schema == "armada/Manifest/v1") = false := by simp [hs]
    have h2 : (d.schema == "armada/ChartGroup/v1") = false := by simp [hs]
    have h3 : (d.schema == "armada/Chart/v1") = true := by simp [hs]
    simp [parseDocs, parseDoc, h1, h2, h3, hd]
  · intro d hs hd
    have h1 : (d.schema == "armada/Manifest/v1") = false := by simp [hs]
    have h2 : (d.schema == "armada/ChartGroup/v1") = true := by simp [hs]
    simp [parseDocs, parseDoc, h1, h2, hd]
  · intro d hs hd hg
    have h1 : (d.schema == "armada/Manifest/v1") = true := by simp [hs]
    have hbg : ((target != "" && d.name == target)
        || (target == "" && st.airManifest.isNone)) = true := by
      rcases hg with ⟨ht, hn⟩ | ⟨ht, hn⟩
      · simp [bne_iff_ne, ht, hn]
      · simp [ht, hn]
    simp [parseDocs, parseDoc, h1, hbg, hd]

/-- parse_decode_skip_spec applied at a probe-failing document and at the
typed-decode-failing chart and manifest documents. -/
theorem parse_decode_skip_spec_witness :
    parseDocs "" [.bad] initPState = parseDocs "" ([] : List RawDoc) initPState
    ∧ parseDocs "" [.good badChartDoc] initPState
        = .error "chart document unmarshalling error"
    ∧ parseDocs "" [.good badManifestDoc] initPState
        = .error "manifest document unmarshalling error" :=
  ⟨(parse_decode_skip_spec "" [] initPState).1,
   (parse_decode_skip_spec "" [] initPState).2.1 badChartDoc rfl rfl,
   (parse_decode_skip_spec "" [] initPState).2.2.2 badManifestDoc rfl rfl
     (Or.inr ⟨rfl, rfl⟩)⟩

end ArmadaGo
